import Mathlib

set_option autoImplicit false
set_option maxRecDepth 8000

/-! Shallow embedding of the platform-game simulation core of `src/script.js`.

Modelling conventions:
* JS numbers are modelled as rationals (`ℚ`); none of the verified behaviour
  depends on floating-point rounding.
* `Math.sin` is modelled as an explicit function parameter `jsSin`, and the
  `Math.random()` draw made by `Coin.create` at parse time as a stream
  parameter `rnd` (the value `Math.random() * Math.PI * 2` assigned to the
  n-th coin actor of the plan).
* A thrown JS exception (calling a method or reading a property of
  `undefined`) is modelled as `Option.none`.
* JS object identity inside one per-step actor list (used by the `a !== this`
  and `actor !== player` comparisons) is modelled by tagging each actor of the
  freshly computed list with its position: `actor.update` always allocates a
  fresh object, so within one `State.update` call two actors of the computed
  list are reference-identical iff they sit at the same position.
-/

/-- The two-dimensional vector `Vec` of `script.js`. -/
structure Vec where
  x : ℚ
  y : ℚ
deriving DecidableEq, Repr

/-- `Vec.prototype.plus`. -/
def Vec.plus (a other : Vec) : Vec :=
  ⟨a.x + other.x, a.y + other.y⟩

/-- `Vec.prototype.times`. -/
def Vec.times (v : Vec) (factor : ℚ) : Vec :=
  ⟨v.x * factor, v.y * factor⟩

/-- Background tile kinds, the strings `"empty"` / `"wall"` / `"lava"`. -/
inductive Tile where
  | empty
  | wall
  | lava
deriving DecidableEq, Repr

/-- Game status, the strings `"playing"` / `"won"` / `"lost"`. -/
inductive Status where
  | playing
  | won
  | lost
deriving DecidableEq, Repr

/-- An actor: the four classes `Player`, `Lava`, `Coin`, `Monster` with their
instance fields (`Monster`'s constructor stores only `pos`; the `speed`
argument is discarded by the source constructor). -/
inductive Actor where
  | player (pos speed : Vec)
  | lava (pos speed : Vec) (reset : Option Vec)
  | coin (pos basePos : Vec) (wobble : ℚ)
  | monster (pos : Vec)
deriving DecidableEq, Repr

/-- The `type` getter of each actor class. -/
def Actor.type : Actor → String
  | .player .. => "player"
  | .lava .. => "lava"
  | .coin .. => "coin"
  | .monster .. => "monster"

/-- The `pos` field common to all actor classes. -/
def Actor.pos : Actor → Vec
  | .player p _ => p
  | .lava p _ _ => p
  | .coin p _ _ => p
  | .monster p => p

/-- The per-class `size` prototype constants
(`Player.prototype.size`, `Lava.prototype.size`, `Coin.prototype.size`,
`Monster.prototype.size`). -/
def Actor.size : Actor → Vec
  | .player .. => ⟨8/10, 15/10⟩
  | .lava .. => ⟨1, 1⟩
  | .coin .. => ⟨6/10, 6/10⟩
  | .monster .. => ⟨12/10, 2⟩

/-- `actor.type === "player"`. -/
def isPlayer (a : Actor) : Bool :=
  a.type == "player"

/-- `actor.type === "coin"`. -/
def isCoin (a : Actor) : Bool :=
  a.type == "coin"

/-- The per-key boolean map produced by `trackKeys` and read by
`Player.prototype.update`. -/
structure Keys where
  ArrowLeft : Bool
  ArrowRight : Bool
  ArrowUp : Bool
deriving DecidableEq, Repr

/-- A parsed level: `width`, `height`, the background grid `rows` and the
initial actor list `startActors`, exactly the fields set by the `Level`
constructor.  The constructor performs no validation, so `rows` is not
guaranteed to be rectangular of size `width × height`. -/
structure Level where
  width : Nat
  height : Nat
  rows : List (List Tile)
  startActors : List Actor
deriving DecidableEq, Repr

/-- The list of consecutive integers from `lo` (inclusive) to `hi`
(exclusive); the index set of a JS `for (i = lo; i < hi; i++)` loop. -/
def intRange (lo hi : ℤ) : List ℤ :=
  (List.range (hi - lo).toNat).map (fun k => lo + Int.ofNat k)

/-- The cell value read by one iteration of `Level.prototype.touches`:
`isOutside ? "wall" : this.rows[y][x]`, where a JS out-of-range index yields
`undefined`, modelled as `none`. -/
def Level.cellAt (l : Level) (x y : ℤ) : Option Tile :=
  if x < 0 ∨ (l.width : ℤ) ≤ x ∨ y < 0 ∨ (l.height : ℤ) ≤ y then some Tile.wall
  else (l.rows.get? y.toNat).bind fun row => row.get? x.toNat

/-- `Level.prototype.touches`: whether the rectangle at `pos` of size `size`
touches a grid cell of kind `type`; cells outside the grid count as `wall`. -/
def Level.touches (l : Level) (pos size : Vec) (type : Tile) : Bool :=
  let xStart := Rat.floor pos.x
  let yStart := Rat.floor pos.y
  let xEnd := Rat.ceil (pos.x + size.x)
  let yEnd := Rat.ceil (pos.y + size.y)
  (intRange yStart yEnd).any fun y =>
    (intRange xStart xEnd).any fun x =>
      decide (l.cellAt x y = some type)

/-- The simulation state `State`: level, current actors and status. -/
structure State where
  level : Level
  actors : List Actor
  status : Status
deriving DecidableEq, Repr

/-- `State.start`. -/
def State.start (level : Level) : State :=
  ⟨level, level.startActors, Status.playing⟩

/-- The `player` getter of `State`:
`this.actors.find(actor => actor.type === "player")`; `none` when the `find`
comes back `undefined`. -/
def State.player (s : State) : Option Actor :=
  s.actors.find? isPlayer

/-- The `overlap` function: strict rectangle intersection on both axes. -/
def overlap (actor1 actor2 : Actor) : Bool :=
  decide (actor1.pos.x + actor1.size.x > actor2.pos.x) &&
  decide (actor1.pos.x < actor2.pos.x + actor2.size.x) &&
  decide (actor1.pos.y + actor1.size.y > actor2.pos.y) &&
  decide (actor1.pos.y < actor2.pos.y + actor2.size.y)

def PLAYER_X_SPEED : ℚ := 7
def GRAVITY : ℚ := 30
def JUMP_SPEED : ℚ := 17
def WOBBLE_SPEED : ℚ := 8
def WOBBLE_DIST : ℚ := 7/100
def MONSTER_SPEED : ℚ := 4

/-- `Player.prototype.update` applied to a player with position `pos0` and
speed `speed`.  Horizontal speed is recomputed from the keys, the horizontal
then the vertical move is accepted only if the destination rectangle does not
touch `wall`; on a blocked vertical move the speed becomes `-JUMP_SPEED` when
the jump key is held and the gravity-accelerated speed is positive, else 0. -/
def Player.update (time : ℚ) (state : State) (keys : Keys) (pos0 speed : Vec) : Actor :=
  let xSpeed : ℚ :=
    (if keys.ArrowLeft then -PLAYER_X_SPEED else 0) +
    (if keys.ArrowRight then PLAYER_X_SPEED else 0)
  let movedX := pos0.plus ⟨xSpeed * time, 0⟩
  let pos1 := if state.level.touches movedX (Actor.player pos0 speed).size Tile.wall
    then pos0 else movedX
  let ySpeed := speed.y + time * GRAVITY
  let movedY := pos1.plus ⟨0, ySpeed * time⟩
  if ¬ state.level.touches movedY (Actor.player pos0 speed).size Tile.wall then
    Actor.player movedY ⟨xSpeed, ySpeed⟩
  else if keys.ArrowUp ∧ ySpeed > 0 then
    Actor.player pos1 ⟨xSpeed, -JUMP_SPEED⟩
  else
    Actor.player pos1 ⟨xSpeed, 0⟩

/-- `Lava.prototype.update`: move to `pos + speed·time` when unblocked; when
blocked jump back to the reset position if one exists, else keep the position
and invert the speed (the new instance carries no reset, as in
`new Lava(this.pos, this.speed.times(-1))`). -/
def Lava.update (time : ℚ) (state : State) (pos speed : Vec) (reset : Option Vec) : Actor :=
  let newPos := pos.plus (speed.times time)
  if ¬ state.level.touches newPos (Actor.lava pos speed reset).size Tile.wall then
    Actor.lava newPos speed reset
  else
    match reset with
    | some r => Actor.lava r speed (some r)
    | none => Actor.lava pos (speed.times (-1)) none

/-- `Coin.prototype.update`: advance the wobble phase and recompute the
position from the base position and `Math.sin` of the phase. -/
def Coin.update (jsSin : ℚ → ℚ) (time : ℚ) (basePos : Vec) (wobble : ℚ) : Actor :=
  let wobble2 := wobble + time * WOBBLE_SPEED
  let wobblePos := jsSin wobble2 * WOBBLE_DIST
  Actor.coin (basePos.plus ⟨0, wobblePos⟩) basePos wobble2

/-- `Monster.prototype.update`: step toward the player's x, stop against a
wall.  Reading `state.player.pos` throws when the state has no player actor,
modelled as `none`. -/
def Monster.update (time : ℚ) (state : State) (pos : Vec) : Option Actor :=
  match state.player with
  | none => none
  | some player =>
    let speed := (if player.pos.x < pos.x then -1 else 1) * time * MONSTER_SPEED
    let newPos : Vec := ⟨pos.x + speed, pos.y⟩
    if state.level.touches newPos (Actor.monster pos).size Tile.wall then
      some (Actor.monster pos)
    else
      some (Actor.monster newPos)

/-- Dispatch of `actor.update(time, state, keys)` over the four classes. -/
def Actor.update (jsSin : ℚ → ℚ) (a : Actor) (time : ℚ) (state : State) (keys : Keys) :
    Option Actor :=
  match a with
  | .player pos speed => some (Player.update time state keys pos speed)
  | .lava pos speed reset => some (Lava.update time state pos speed reset)
  | .coin _ basePos wobble => some (Coin.update jsSin time basePos wobble)
  | .monster pos => Monster.update time state pos

/-- `this.actors.map(actor => actor.update(time, this, keys))`: every actor is
updated against the same pre-transition state; a thrown exception aborts the
whole call. -/
def updateActors (jsSin : ℚ → ℚ) (time : ℚ) (s : State) (keys : Keys) :
    List Actor → Option (List Actor)
  | [] => some []
  | a :: rest =>
    match Actor.update jsSin a time s keys with
    | none => none
    | some a' =>
      match updateActors jsSin time s keys rest with
      | none => none
      | some rest' => some (a' :: rest')

/-- Tag each list element with its position, starting from `n`; the tags model
JS reference identity of the freshly allocated post-update actors. -/
def tagFrom (n : Nat) : List Actor → List (Nat × Actor)
  | [] => []
  | a :: rest => (n, a) :: tagFrom (n + 1) rest

/-- The state threaded through the collide loop of `State.prototype.update`:
its actor list keeps the identity tags so that the `a !== this` filters of the
collide methods can be expressed. -/
structure TState where
  level : Level
  actors : List (Nat × Actor)
  status : Status
deriving DecidableEq, Repr

/-- The `player` getter evaluated on the tagged collide-loop state. -/
def TState.player (ts : TState) : Option (Nat × Actor) :=
  ts.actors.find? fun e => isPlayer e.2

/-- Dispatch of `actor.collide(state)`: `Lava` sets status `lost`; `Coin`
drops itself (`a !== this`, i.e. the entry with its tag) and sets status `won`
when no coin is left; `Monster` compares the player's bottom edge against
`this.pos.y + 0.5` and either drops itself or sets status `lost`.  `Player`
has no `collide` method, so invoking it throws (`none`); `Monster.collide`
also throws when the state has no player. -/
def Actor.collide (selfTag : Nat) (self : Actor) (ts : TState) : Option TState :=
  match self with
  | .player .. => none
  | .lava .. => some ⟨ts.level, ts.actors, Status.lost⟩
  | .coin .. =>
    let filtered := ts.actors.filter fun e => e.1 ≠ selfTag
    let status := if filtered.any (fun e => isCoin e.2) then ts.status else Status.won
    some ⟨ts.level, filtered, status⟩
  | .monster pos =>
    match ts.player with
    | none => none
    | some pe =>
      if pe.2.pos.y + pe.2.size.y < pos.y + 1/2 then
        some ⟨ts.level, ts.actors.filter fun e => e.1 ≠ selfTag, ts.status⟩
      else
        some ⟨ts.level, ts.actors, Status.lost⟩

/-- The collide loop of `State.prototype.update`:
`for (let actor of actors) if (actor !== player && overlap(actor, player))
newState = actor.collide(newState)`.  The iterated list is the frozen
post-update list; `pe` is the player entry found in it; each collide sees the
accumulated state. -/
def runCollides (pe : Nat × Actor) : List (Nat × Actor) → TState → Option TState
  | [], ts => some ts
  | e :: rest, ts =>
    if e ≠ pe ∧ overlap e.2 pe.2 = true then
      match Actor.collide e.1 e.2 ts with
      | none => none
      | some ts' => runCollides pe rest ts'
    else
      runCollides pe rest ts

/-- `State.prototype.update`: advance all actors against the pre-transition
state; return at once when the status is not `playing`; set status `lost` when
the updated player touches background lava; otherwise run the collide loop. -/
def State.update (jsSin : ℚ → ℚ) (s : State) (time : ℚ) (keys : Keys) : Option State :=
  match updateActors jsSin time s keys s.actors with
  | none => none
  | some actors =>
    let newState : State := ⟨s.level, actors, s.status⟩
    if newState.status ≠ Status.playing then some newState
    else
      match (tagFrom 0 actors).find? (fun e => isPlayer e.2) with
      | none => none
      | some pe =>
        if s.level.touches pe.2.pos pe.2.size Tile.lava then
          some ⟨s.level, actors, Status.lost⟩
        else
          match runCollides pe (tagFrom 0 actors) ⟨s.level, tagFrom 0 actors, newState.status⟩ with
          | none => none
          | some final => some ⟨final.level, final.actors.map Prod.snd, final.status⟩

/-- The actor classes appearing as values of `levelChars`. -/
inductive ActorClass where
  | playerK
  | coinK
  | lavaK
  | monsterK
deriving DecidableEq, Repr

/-- The value of one entry of the `levelChars` table: either a background tile
string or an actor class. -/
inductive LevelChar where
  | tile (t : Tile)
  | actorClass (k : ActorClass)
deriving DecidableEq, Repr

/-- The `levelChars` mapping; a character absent from the table yields
`undefined` (`none`). -/
def levelChars (c : Char) : Option LevelChar :=
  if c = '.' then some (.tile .empty)
  else if c = '#' then some (.tile .wall)
  else if c = '+' then some (.tile .lava)
  else if c = '@' then some (.actorClass .playerK)
  else if c = 'o' then some (.actorClass .coinK)
  else if c = '=' then some (.actorClass .lavaK)
  else if c = '|' then some (.actorClass .lavaK)
  else if c = 'v' then some (.actorClass .lavaK)
  else if c = 'M' then some (.actorClass .monsterK)
  else none

/-- `Player.create`: spawn half a square above the plan position, zero speed. -/
def Player.create (pos : Vec) : Actor :=
  Actor.player (pos.plus ⟨0, mkRat (-1) 2⟩) ⟨0, 0⟩

/-- `Coin.create`: base position offset by `(0.2, 0.1)`; `phase` stands for
the `Math.random() * Math.PI * 2` draw. -/
def Coin.create (pos : Vec) (phase : ℚ) : Actor :=
  let basePos := pos.plus ⟨mkRat 2 10, mkRat 1 10⟩
  Actor.coin basePos basePos phase

/-- `Lava.create`: the three variants keyed by the source character; any other
character yields `undefined` (`none`), which cannot arise through
`levelChars`. -/
def Lava.create (pos : Vec) (c : Char) : Option Actor :=
  if c = '=' then some (Actor.lava pos ⟨2, 0⟩ none)
  else if c = '|' then some (Actor.lava pos ⟨0, 2⟩ none)
  else if c = 'v' then some (Actor.lava pos ⟨0, 3⟩ (some pos))
  else none

/-- `Monster.create`: spawn one square above the plan position (the speed
argument `new Vec(2, 0)` is dropped by the `Monster` constructor). -/
def Monster.create (pos : Vec) : Actor :=
  Actor.monster (pos.plus ⟨0, -1⟩)

/-- `type.create(new Vec(x, y), char)` for an actor class, threading the count
`n` of `Math.random()` draws consumed so far (one per coin). -/
def createActor (rnd : Nat → ℚ) (k : ActorClass) (pos : Vec) (c : Char) (n : Nat) :
    Option (Actor × Nat) :=
  match k with
  | .playerK => some (Player.create pos, n)
  | .coinK => some (Coin.create pos (rnd n), n + 1)
  | .lavaK => (Lava.create pos c).map fun a => (a, n)
  | .monsterK => some (Monster.create pos, n)

/-- One plan row of the `Level` constructor's inner `map`: produce the
background tiles of row `y` starting at column `x` and collect the created
actors in order; a `levelChars` miss makes the JS code call `.create` on
`undefined`, a thrown `TypeError` modelled as `none`. -/
def parseRow (rnd : Nat → ℚ) (y : Nat) :
    Nat → Nat → List Char → Option (List Tile × List Actor × Nat)
  | _, n, [] => some ([], [], n)
  | x, n, c :: cs =>
    match levelChars c with
    | none => none
    | some (.tile t) =>
      (parseRow rnd y (x + 1) n cs).map fun r => (t :: r.1, r.2.1, r.2.2)
    | some (.actorClass k) =>
      match createActor rnd k ⟨(x : ℚ), (y : ℚ)⟩ c n with
      | none => none
      | some (a, n') =>
        (parseRow rnd y (x + 1) n' cs).map fun r => (Tile.empty :: r.1, a :: r.2.1, r.2.2)

/-- The `Level` constructor's outer `map` over the plan rows. -/
def parseRows (rnd : Nat → ℚ) :
    Nat → Nat → List (List Char) → Option (List (List Tile) × List Actor × Nat)
  | _, n, [] => some ([], [], n)
  | y, n, r :: rs =>
    match parseRow rnd y 0 n r with
    | none => none
    | some (ts, acts, n') =>
      (parseRows rnd (y + 1) n' rs).map fun rest => (ts :: rest.1, acts ++ rest.2.1, rest.2.2)

/-- `plan.trim().split("\n").map(l => [...l])`. -/
def rowsOfPlan (plan : String) : List (List Char) :=
  (plan.trim.splitOn "\n").map String.toList

/-- The `Level` constructor: `none` models the exception thrown on an
unrecognized character; no other validation is performed (`width` is the
length of the first row, whatever the other rows look like). -/
def parseLevel (rnd : Nat → ℚ) (plan : String) : Option Level :=
  match parseRows rnd 0 0 (rowsOfPlan plan) with
  | none => none
  | some (tss, acts, _) =>
    some ⟨((rowsOfPlan plan).headD []).length, (rowsOfPlan plan).length, tss, acts⟩

/-! Concrete instances used to exhibit behaviours of the definitions above. -/

/-- A `Math.sin` interpretation that is identically zero; the claims settled
below hold for every interpretation, the concrete runs use this one. -/
def jsSin0 : ℚ → ℚ := fun _ => 0

/-- A `Math.random`-stream interpretation that is identically zero. -/
def rnd0 : Nat → ℚ := fun _ => 0

/-- No key held. -/
def keysNone : Keys := ⟨false, false, false⟩

/-- Only the jump key held. -/
def keysJump : Keys := ⟨false, false, true⟩

/-- The level parsed from the one-character plan `"."`. -/
def lvl1 : Level := ⟨1, 1, [[Tile.empty]], []⟩

/-- The level parsed from a 3×3 all-`'.'` plan. -/
def lvl3 : Level := ⟨3, 3, List.replicate 3 (List.replicate 3 Tile.empty), []⟩

/-- The level parsed from a 3×3 plan of `'.'` with `'+'` (lava) at cell
`(1, 1)`. -/
def lvl3L : Level :=
  ⟨3, 3, [[Tile.empty, Tile.empty, Tile.empty],
          [Tile.empty, Tile.lava, Tile.empty],
          [Tile.empty, Tile.empty, Tile.empty]], []⟩

/-- The level parsed from a 5×5 all-`'.'` plan. -/
def lvl5 : Level := ⟨5, 5, List.replicate 5 (List.replicate 5 Tile.empty), []⟩

/-- A playing state on `lvl5` in which, after one step of `1/100` with no key
held, the player overlaps both the moving-lava actor and the only coin, the
coin sitting after the lava in the stored actor order. -/
def stC10 : State :=
  ⟨lvl5, [Actor.player ⟨2, mkRat 3 2⟩ ⟨0, 0⟩,
          Actor.lava ⟨2, 2⟩ ⟨2, 0⟩ none,
          Actor.coin ⟨mkRat 11 5, mkRat 21 10⟩ ⟨mkRat 11 5, mkRat 21 10⟩ 0], Status.playing⟩

/-- A playing state on `lvl3` with the player just above the only coin. -/
def stWin : State :=
  ⟨lvl3, [Actor.player ⟨1, mkRat 1 2⟩ ⟨0, 0⟩,
          Actor.coin ⟨mkRat 6 5, mkRat 11 10⟩ ⟨mkRat 6 5, mkRat 11 10⟩ 0], Status.playing⟩

/-- A playing state on `lvl3L` with the player about to rest on the lava
tile. -/
def stLava : State :=
  ⟨lvl3L, [Actor.player ⟨1, mkRat 1 2⟩ ⟨0, 0⟩], Status.playing⟩

/-- A `won` state containing a single coin actor. -/
def stWon : State :=
  ⟨lvl3, [Actor.coin ⟨1, 1⟩ ⟨1, 1⟩ 0], Status.won⟩

/-- A tagged collide-loop state holding a player and a monster, the player's
feet above the monster's midline. -/
def tsStomp : TState :=
  ⟨lvl3, [(0, Actor.player ⟨0, 0⟩ ⟨0, 0⟩), (1, Actor.monster ⟨0, mkRat 6 5⟩)], Status.playing⟩

/-- The player of `stC10` after one step of `1/100` with no key held. -/
def p10 : Actor := Actor.player ⟨2, mkRat 1503 1000⟩ ⟨0, mkRat 3 10⟩

/-- The moving lava of `stC10` after one step of `1/100`. -/
def l10 : Actor := Actor.lava ⟨mkRat 101 50, 2⟩ ⟨2, 0⟩ none

/-- The coin of `stC10` after one step of `1/100` under `jsSin0`. -/
def c10 : Actor :=
  Actor.coin ⟨mkRat 11 5, mkRat 21 10⟩ ⟨mkRat 11 5, mkRat 21 10⟩ (mkRat 2 25)

/-! Helper lemmas. -/

theorem mem_intRange {a lo hi : ℤ} : a ∈ intRange lo hi ↔ lo ≤ a ∧ a < hi := by
  unfold intRange
  simp only [List.mem_map, List.mem_range, Int.ofNat_eq_coe]
  constructor
  · rintro ⟨k, hk, rfl⟩
    omega
  · rintro ⟨h1, h2⟩
    exact ⟨(a - lo).toNat, by omega, by omega⟩

theorem touches_iff (l : Level) (pos size : Vec) (t : Tile) :
    l.touches pos size t = true ↔
      ∃ x y : ℤ, Rat.floor pos.x ≤ x ∧ x < Rat.ceil (pos.x + size.x) ∧
        Rat.floor pos.y ≤ y ∧ y < Rat.ceil (pos.y + size.y) ∧ l.cellAt x y = some t := by
  unfold Level.touches
  simp only [List.any_eq_true, mem_intRange, decide_eq_true_eq]
  constructor
  · rintro ⟨y, ⟨hy1, hy2⟩, x, ⟨hx1, hx2⟩, h⟩
    exact ⟨x, y, hx1, hx2, hy1, hy2, h⟩
  · rintro ⟨x, y, hx1, hx2, hy1, hy2, h⟩
    exact ⟨y, ⟨hy1, hy2⟩, x, ⟨hx1, hx2⟩, h⟩

theorem tagFrom_map_snd (n : Nat) (l : List Actor) : (tagFrom n l).map Prod.snd = l := by
  induction l generalizing n with
  | nil => rfl
  | cons a rest ih => simp [tagFrom, ih]

theorem tagFrom_fst_lower {n : Nat} {l : List Actor} {e : Nat × Actor}
    (he : e ∈ tagFrom n l) : n ≤ e.1 := by
  induction l generalizing n with
  | nil => simp [tagFrom] at he
  | cons a rest ih =>
    simp only [tagFrom, List.mem_cons] at he
    rcases he with rfl | he
    · exact Nat.le_refl n
    · exact Nat.le_trans (Nat.le_succ n) (ih he)

theorem tagFrom_nodup_fst (n : Nat) (l : List Actor) : ((tagFrom n l).map Prod.fst).Nodup := by
  induction l generalizing n with
  | nil => simp [tagFrom]
  | cons a rest ih =>
    simp only [tagFrom, List.map_cons, List.nodup_cons]
    refine ⟨?_, ih (n + 1)⟩
    intro hmem
    simp only [List.mem_map] at hmem
    obtain ⟨e, he, hfst⟩ := hmem
    have := tagFrom_fst_lower he
    omega

theorem tagFrom_filter_lt (n m : Nat) (l : List Actor) (hm : m < n) :
    ((tagFrom n l).filter fun e => e.1 ≠ m).map Prod.snd = l := by
  induction l generalizing n with
  | nil => rfl
  | cons a rest ih =>
    have hne : (n ≠ m) := by omega
    simp only [tagFrom, List.filter_cons, decide_eq_true_eq]
    rw [if_pos hne]
    simp only [List.map_cons]
    rw [ih (n + 1) (by omega)]

theorem tagFrom_filter_eraseIdx (n i : Nat) (l : List Actor) :
    ((tagFrom n l).filter fun e => e.1 ≠ n + i).map Prod.snd = l.eraseIdx i := by
  induction l generalizing n i with
  | nil => rfl
  | cons a rest ih =>
    cases i with
    | zero =>
      simp only [tagFrom, List.filter_cons, decide_eq_true_eq, Nat.add_zero]
      rw [if_neg (by omega)]
      rw [tagFrom_filter_lt (n + 1) n rest (by omega)]
      rfl
    | succ k =>
      simp only [tagFrom, List.filter_cons, decide_eq_true_eq]
      rw [if_pos (by omega)]
      simp only [List.map_cons]
      have harith : n + (k + 1) = (n + 1) + k := by omega
      rw [harith, ih (n + 1) k]
      rfl

theorem runCollides_notrig (pe : Nat × Actor) (L : List (Nat × Actor)) (ts : TState)
    (h : ∀ e ∈ L, ¬ (e ≠ pe ∧ overlap e.2 pe.2 = true)) :
    runCollides pe L ts = some ts := by
  induction L generalizing ts with
  | nil => rfl
  | cons e rest ih =>
    rw [runCollides, if_neg (h e (List.mem_cons_self e rest))]
    exact ih ts fun e' he' => h e' (List.mem_cons_of_mem e he')

theorem runCollides_unique (pe ic : Nat × Actor)
    (htrig : ic ≠ pe ∧ overlap ic.2 pe.2 = true) :
    ∀ (L : List (Nat × Actor)) (ts : TState),
      (L.map Prod.fst).Nodup → ic ∈ L →
      (∀ e ∈ L, e ≠ pe → overlap e.2 pe.2 = true → e = ic) →
      runCollides pe L ts = Actor.collide ic.1 ic.2 ts := by
  intro L
  induction L with
  | nil =>
    intro ts _ hmem _
    cases hmem
  | cons e rest ih =>
    intro ts hnd hmem honly
    simp only [List.map_cons, List.nodup_cons] at hnd
    by_cases hic : e = ic
    · subst hic
      rw [runCollides, if_pos htrig]
      cases hcol : Actor.collide e.1 e.2 ts with
      | none => rfl
      | some ts' =>
        apply runCollides_notrig
        rintro e' he' ⟨hne, hov⟩
        have he'e : e' = e := honly e' (List.mem_cons_of_mem e he') hne hov
        subst he'e
        exact hnd.1 (List.mem_map_of_mem Prod.fst he')
    · have hmem' : ic ∈ rest := by
        rcases List.mem_cons.mp hmem with h | h
        · exact absurd h.symm hic
        · exact h
      have hskip : ¬ (e ≠ pe ∧ overlap e.2 pe.2 = true) := by
        rintro ⟨hne, hov⟩
        exact hic (honly e (List.mem_cons_self e rest) hne hov)
      rw [runCollides, if_neg hskip]
      exact ih ts hnd.2 hmem' fun e' he' => honly e' (List.mem_cons_of_mem e he')

/-! Claim theorems. -/

/-- Claim C4: for every level and rectangle, `Level.touches` examines exactly
the grid cells from `floor(pos)` (inclusive) to `ceil(pos + size)` (exclusive)
on each axis; every examined cell outside `[0,width)×[0,height)` is treated as
`wall` regardless of the requested kind, so `touches(pos, size, wall)` is true
for any rectangle whose scan spans an out-of-bounds cell, and a true `touches`
query for `empty` or `lava` is always witnessed by an in-bounds cell of the
grid. -/
theorem C4_touches_scan_and_bounds (l : Level) (pos size : Vec) :
    (∀ t : Tile, l.touches pos size t = true ↔
      ∃ x y : ℤ, Rat.floor pos.x ≤ x ∧ x < Rat.ceil (pos.x + size.x) ∧
        Rat.floor pos.y ≤ y ∧ y < Rat.ceil (pos.y + size.y) ∧ l.cellAt x y = some t)
    ∧ ((∃ x y : ℤ, Rat.floor pos.x ≤ x ∧ x < Rat.ceil (pos.x + size.x) ∧
        Rat.floor pos.y ≤ y ∧ y < Rat.ceil (pos.y + size.y) ∧
        (x < 0 ∨ (l.width : ℤ) ≤ x ∨ y < 0 ∨ (l.height : ℤ) ≤ y)) →
        l.touches pos size Tile.wall = true)
    ∧ (∀ t : Tile, (t = Tile.empty ∨ t = Tile.lava) → l.touches pos size t = true →
      ∃ x y : ℤ, Rat.floor pos.x ≤ x ∧ x < Rat.ceil (pos.x + size.x) ∧
        Rat.floor pos.y ≤ y ∧ y < Rat.ceil (pos.y + size.y) ∧
        ¬ (x < 0 ∨ (l.width : ℤ) ≤ x ∨ y < 0 ∨ (l.height : ℤ) ≤ y) ∧
        ((l.rows.get? y.toNat).bind fun row => row.get? x.toNat) = some t) := by
  refine ⟨touches_iff l pos size, ?_, ?_⟩
  · rintro ⟨x, y, hx1, hx2, hy1, hy2, hout⟩
    refine (touches_iff l pos size Tile.wall).mpr ⟨x, y, hx1, hx2, hy1, hy2, ?_⟩
    unfold Level.cellAt
    rw [if_pos hout]
  · rintro t ht htt
    obtain ⟨x, y, hx1, hx2, hy1, hy2, hcell⟩ := (touches_iff l pos size t).mp htt
    unfold Level.cellAt at hcell
    by_cases hout : x < 0 ∨ (l.width : ℤ) ≤ x ∨ y < 0 ∨ (l.height : ℤ) ≤ y
    · rw [if_pos hout] at hcell
      rcases ht with rfl | rfl <;> simp at hcell
    · rw [if_neg hout] at hcell
      exact ⟨x, y, hx1, hx2, hy1, hy2, hout, hcell⟩

/-- Witness for C4: on the 1×1 empty level, a rectangle spanning the
out-of-bounds column `-1` touches `wall`. -/
theorem C4_touches_scan_and_bounds_witness :
    lvl1.touches ⟨-1, 0⟩ ⟨1, 1⟩ Tile.wall = true :=
  (C4_touches_scan_and_bounds lvl1 ⟨-1, 0⟩ ⟨1, 1⟩).2.1
    ⟨-1, 0, by with_unfolding_all decide, by with_unfolding_all decide,
      by with_unfolding_all decide, by with_unfolding_all decide,
      by with_unfolding_all decide⟩

/-- Claim C9: `State.update` is a pure, deterministic function of its inputs:
two invocations on equal states (same level, same actor field values in the
same order, same status) with equal time steps and key snapshots return equal
states; no hidden input is read during a step (the `Math.random` stream is
consumed only by `Coin.create` at parse time and does not appear among
`State.update`'s inputs). -/
theorem C9_update_deterministic (jsSin : ℚ → ℚ) (s1 s2 : State) (t1 t2 : ℚ) (k1 k2 : Keys)
    (hl : s1.level = s2.level) (ha : s1.actors = s2.actors) (hs : s1.status = s2.status)
    (ht : t1 = t2) (hk : k1 = k2) :
    State.update jsSin s1 t1 k1 = State.update jsSin s2 t2 k2 := by
  cases s1
  cases s2
  simp only at hl ha hs
  subst hl
  subst ha
  subst hs
  subst ht
  subst hk
  rfl

/-- Witness for C9 at a concrete state. -/
theorem C9_update_deterministic_witness :
    State.update jsSin0 stWin (mkRat 1 100) keysNone =
      State.update jsSin0 stWin (mkRat 1 100) keysNone :=
  C9_update_deterministic jsSin0 stWin stWin (mkRat 1 100) (mkRat 1 100) keysNone keysNone
    rfl rfl rfl rfl rfl

/-- Claim C8: terminal statuses are absorbing: when the status is not
`playing`, `State.update` returns (whenever the per-actor updates return, i.e.
no exception is thrown) the state with the same level, the same status, and
the individually advanced actors — no lava check and no collide processing
runs. -/
theorem C8_terminal_absorbing (jsSin : ℚ → ℚ) (s : State) (time : ℚ) (keys : Keys)
    (actors' : List Actor)
    (hterm : s.status ≠ Status.playing)
    (hupd : updateActors jsSin time s keys s.actors = some actors') :
    State.update jsSin s time keys = some ⟨s.level, actors', s.status⟩ := by
  unfold State.update
  rw [hupd]
  simp only
  rw [if_pos hterm]

/-- Witness for C8: a `won` state with one coin keeps status `won` while the
coin still advances its wobble phase. -/
theorem C8_terminal_absorbing_witness :
    State.update jsSin0 stWon (mkRat 1 100) keysNone =
      some ⟨stWon.level, [Actor.coin ⟨1, 1⟩ ⟨1, 1⟩ (mkRat 2 25)], stWon.status⟩ :=
  C8_terminal_absorbing jsSin0 stWon (mkRat 1 100) keysNone
    [Actor.coin ⟨1, 1⟩ ⟨1, 1⟩ (mkRat 2 25)]
    (by with_unfolding_all decide) (by with_unfolding_all decide)

/-- Claim C10: the collide loop does not stop at a `lost` status and a later
collide can overwrite it: in `stC10` the updated player overlaps both the
moving lava `l10` and, later in the stored order, the last coin `c10`; the
lava collide sets status `lost`, the coin collide then removes the coin and
sets status `won`, and the whole `State.update` call returns `won` despite the
lava contact in the same step. -/
theorem C10_coin_overwrites_lava :
    overlap l10 p10 = true ∧ overlap c10 p10 = true
    ∧ Actor.collide 1 l10 ⟨lvl5, tagFrom 0 [p10, l10, c10], Status.playing⟩ =
        some ⟨lvl5, tagFrom 0 [p10, l10, c10], Status.lost⟩
    ∧ Actor.collide 2 c10 ⟨lvl5, tagFrom 0 [p10, l10, c10], Status.lost⟩ =
        some ⟨lvl5, [(0, p10), (1, l10)], Status.won⟩
    ∧ State.update jsSin0 stC10 (mkRat 1 100) keysNone =
        some ⟨lvl5, [p10, l10], Status.won⟩ := by
  with_unfolding_all decide

theorem any_map_snd (L : List (Nat × Actor)) (q : Actor → Bool) :
    (L.map Prod.snd).any q = L.any (fun e => q e.2) := by
  induction L with
  | nil => rfl
  | cons e rest ih => simp [List.any_cons, ih]

/-- Claim C2: for every playing state, if after advancing all actors the
updated player's rectangle touches a `lava` background tile, `State.update`
returns status `lost` with the actor list exactly as computed by the
per-actor updates (no collide processing runs) and the level unchanged. -/
theorem C2_lava_tile_loss (jsSin : ℚ → ℚ) (s : State) (time : ℚ) (keys : Keys)
    (actors' : List Actor) (pe : Nat × Actor)
    (hplay : s.status = Status.playing)
    (hupd : updateActors jsSin time s keys s.actors = some actors')
    (hfind : (tagFrom 0 actors').find? (fun e => isPlayer e.2) = some pe)
    (hlava : s.level.touches pe.2.pos pe.2.size Tile.lava = true) :
    State.update jsSin s time keys = some ⟨s.level, actors', Status.lost⟩ := by
  unfold State.update
  rw [hupd]
  simp only [hplay]
  rw [if_neg (by simp)]
  rw [hfind]
  simp only [hlava, if_true]

/-- Witness for C2: on the level with a lava tile at `(1,1)`, the falling
player ends the step resting on the lava and the state becomes `lost`. -/
theorem C2_lava_tile_loss_witness :
    State.update jsSin0 stLava (mkRat 1 100) keysNone =
      some ⟨stLava.level, [Actor.player ⟨1, mkRat 503 1000⟩ ⟨0, mkRat 3 10⟩], Status.lost⟩ :=
  C2_lava_tile_loss jsSin0 stLava (mkRat 1 100) keysNone
    [Actor.player ⟨1, mkRat 503 1000⟩ ⟨0, mkRat 3 10⟩]
    (0, Actor.player ⟨1, mkRat 503 1000⟩ ⟨0, mkRat 3 10⟩)
    (by with_unfolding_all decide) (by with_unfolding_all decide)
    (by with_unfolding_all decide) (by with_unfolding_all decide)

/-- Claim C1: in a playing state whose computed post-update actors contain a
player not touching background lava, and in which the only computed actor
overlapping that player (other than the player entry itself) is one specific
coin, `State.update` removes exactly that coin instance (by identity, i.e. by
its position tag) from the computed list, leaves every other actor untouched,
and returns status `won` when no coin-kind actor remains after the removal
and the unchanged status `playing` otherwise. -/
theorem C1_last_coin_win (jsSin : ℚ → ℚ) (s : State) (time : ℚ) (keys : Keys)
    (actors' : List Actor) (pt i : Nat) (p : Actor) (cpos cbase : Vec) (cwob : ℚ)
    (hplay : s.status = Status.playing)
    (hupd : updateActors jsSin time s keys s.actors = some actors')
    (hfind : (tagFrom 0 actors').find? (fun e => isPlayer e.2) = some (pt, p))
    (hnolava : s.level.touches p.pos p.size Tile.lava = false)
    (hmem : (i, Actor.coin cpos cbase cwob) ∈ tagFrom 0 actors')
    (hover : overlap (Actor.coin cpos cbase cwob) p = true)
    (honly : ∀ e ∈ tagFrom 0 actors', e ≠ (pt, p) → overlap e.2 p = true →
      e = (i, Actor.coin cpos cbase cwob)) :
    State.update jsSin s time keys = some ⟨s.level, actors'.eraseIdx i,
      if (actors'.eraseIdx i).any isCoin then Status.playing else Status.won⟩ := by
  have hptype : isPlayer p = true := by
    have h := List.find?_some hfind
    simpa using h
  have hne : (i, Actor.coin cpos cbase cwob) ≠ (pt, p) := by
    intro h
    have h2 := congrArg Prod.snd h
    simp only at h2
    rw [← h2] at hptype
    simp [isPlayer, Actor.type] at hptype
  have hfilter : ((tagFrom 0 actors').filter fun e => e.1 ≠ i).map Prod.snd =
      actors'.eraseIdx i := by
    have h := tagFrom_filter_eraseIdx 0 i actors'
    simp only [Nat.zero_add] at h
    exact h
  have hrun := runCollides_unique (pt, p) (i, Actor.coin cpos cbase cwob) ⟨hne, hover⟩
    (tagFrom 0 actors') ⟨s.level, tagFrom 0 actors', Status.playing⟩
    (tagFrom_nodup_fst 0 actors') hmem honly
  have hany : ((tagFrom 0 actors').filter fun e => e.1 ≠ i).any (fun e => isCoin e.2) =
      (actors'.eraseIdx i).any isCoin := by
    rw [← hfilter, any_map_snd]
  unfold State.update
  rw [hupd]
  simp only [hplay]
  rw [if_neg (by simp)]
  rw [hfind]
  simp only [hnolava, Bool.false_eq_true, if_false]
  rw [hrun]
  simp only [Actor.collide]
  rw [hfilter, hany]

/-- Witness for C1: in `stWin` the updated player overlaps the only coin; one
update removes the coin and wins. -/
theorem C1_last_coin_win_witness :
    State.update jsSin0 stWin (mkRat 1 100) keysNone =
      some ⟨lvl3, [Actor.player ⟨1, mkRat 503 1000⟩ ⟨0, mkRat 3 10⟩], Status.won⟩ := by
  have h := C1_last_coin_win jsSin0 stWin (mkRat 1 100) keysNone
    [Actor.player ⟨1, mkRat 503 1000⟩ ⟨0, mkRat 3 10⟩,
     Actor.coin ⟨mkRat 6 5, mkRat 11 10⟩ ⟨mkRat 6 5, mkRat 11 10⟩ (mkRat 2 25)]
    0 1 (Actor.player ⟨1, mkRat 503 1000⟩ ⟨0, mkRat 3 10⟩)
    ⟨mkRat 6 5, mkRat 11 10⟩ ⟨mkRat 6 5, mkRat 11 10⟩ (mkRat 2 25)
    (by with_unfolding_all decide) (by with_unfolding_all decide)
    (by with_unfolding_all decide) (by with_unfolding_all decide)
    (by with_unfolding_all decide) (by with_unfolding_all decide)
    (by with_unfolding_all decide)
  exact h.trans (by with_unfolding_all decide)

/-- Counterexample to claim C5 as stated: with pre-update vertical speed `-1`
(ascending) and `dt = 1/10`, the vertical move is blocked by `wall` (the 1×1
level's boundary), the jump key is held, and the claim predicts a resulting
vertical speed of `0` (a jump "never triggered while ascending"); the code
instead triggers the jump and returns vertical speed `-17`, because its test
uses the gravity-accelerated speed `-1 + (1/10)·30 = 2 > 0`, not the
pre-update speed. -/
theorem C5_counterexample :
    Player.update (mkRat 1 10) ⟨lvl1, [], Status.playing⟩ keysJump ⟨mkRat 1 10, 0⟩ ⟨0, -1⟩ =
      Actor.player ⟨mkRat 1 10, 0⟩ ⟨0, -17⟩
    ∧ ((-1 : ℚ) < 0)
    ∧ keysJump.ArrowUp = true
    ∧ lvl1.touches
        (Vec.plus ⟨mkRat 1 10, 0⟩ ⟨0, (-1 + mkRat 1 10 * GRAVITY) * mkRat 1 10⟩)
        (Actor.player ⟨mkRat 1 10, 0⟩ ⟨0, -1⟩).size Tile.wall = true := by
  with_unfolding_all decide

/-- Claim C5 (amended): when the gravity-accelerated vertical move of
`Player.update` is blocked by `wall`, the position keeps its
pre-vertical-move value, and the resulting vertical speed is the fixed
negative jump impulse `-JUMP_SPEED` if the jump key is held and the
gravity-accelerated vertical speed `speed.y + dt·GRAVITY` is strictly
positive, and `0` otherwise.  (The code tests the post-gravity speed, not the
pre-update speed: a jump also triggers while still ascending whenever gravity
has already flipped the accelerated speed positive, and does not trigger from
rest when `dt = 0`.) -/
theorem C5_blocked_vertical_amended (time : ℚ) (state : State) (keys : Keys)
    (pos0 speed : Vec) (xSpeed ySpeed : ℚ) (pos1 : Vec)
    (hx : xSpeed = (if keys.ArrowLeft then -PLAYER_X_SPEED else 0) +
      (if keys.ArrowRight then PLAYER_X_SPEED else 0))
    (hp1 : pos1 = if state.level.touches (pos0.plus ⟨xSpeed * time, 0⟩)
      (Actor.player pos0 speed).size Tile.wall then pos0 else pos0.plus ⟨xSpeed * time, 0⟩)
    (hy : ySpeed = speed.y + time * GRAVITY)
    (hblocked : state.level.touches (pos1.plus ⟨0, ySpeed * time⟩)
      (Actor.player pos0 speed).size Tile.wall = true) :
    Player.update time state keys pos0 speed =
      Actor.player pos1 ⟨xSpeed, if keys.ArrowUp ∧ ySpeed > 0 then -JUMP_SPEED else 0⟩ := by
  subst hx
  subst hy
  subst hp1
  unfold Player.update
  simp only [hblocked]
  by_cases hj : keys.ArrowUp ∧ speed.y + time * GRAVITY > 0
  · simp [hj]
  · simp [hj]

/-- Witness for the amended C5 at the counterexample's input. -/
theorem C5_blocked_vertical_amended_witness :
    Player.update (mkRat 1 10) ⟨lvl1, [], Status.playing⟩ keysJump ⟨mkRat 1 10, 0⟩ ⟨0, -1⟩ =
      Actor.player ⟨mkRat 1 10, 0⟩ ⟨0, -17⟩ := by
  have h := C5_blocked_vertical_amended (mkRat 1 10) ⟨lvl1, [], Status.playing⟩ keysJump
    ⟨mkRat 1 10, 0⟩ ⟨0, -1⟩ 0 2 ⟨mkRat 1 10, 0⟩
    (by with_unfolding_all decide) (by with_unfolding_all decide)
    (by with_unfolding_all decide) (by with_unfolding_all decide)
  exact h.trans (by with_unfolding_all decide)

/-- Claim C6: `Lava.update` moves to `pos + speed·dt` with unchanged speed
when that rectangle does not touch `wall`; when blocked it jumps to the reset
position with unchanged speed if one is carried (dripping variant), and
otherwise keeps the current position and multiplies the speed by `-1`
(bouncing variant). -/
theorem C6_lava_update (time : ℚ) (state : State) (pos speed : Vec) (reset : Option Vec) :
    (state.level.touches (pos.plus (speed.times time))
        (Actor.lava pos speed reset).size Tile.wall = false →
      Lava.update time state pos speed reset =
        Actor.lava (pos.plus (speed.times time)) speed reset)
    ∧ (state.level.touches (pos.plus (speed.times time))
        (Actor.lava pos speed reset).size Tile.wall = true →
      ∀ r : Vec, reset = some r →
        Lava.update time state pos speed reset = Actor.lava r speed (some r))
    ∧ (state.level.touches (pos.plus (speed.times time))
        (Actor.lava pos speed reset).size Tile.wall = true →
      reset = none →
        Lava.update time state pos speed reset = Actor.lava pos (speed.times (-1)) none) := by
  refine ⟨?_, ?_, ?_⟩
  · intro h
    unfold Lava.update
    simp [h]
  · intro h r hr
    subst hr
    unfold Lava.update
    simp [h]
  · intro h hr
    subst hr
    unfold Lava.update
    simp [h]

/-- Witness for C6: on the 1×1 level a bouncing lava is unblocked for `dt = 0`
and blocked (by the boundary) for `dt = 1`, where it stays in place and
inverts its speed. -/
theorem C6_lava_update_witness :
    Lava.update 0 ⟨lvl1, [], Status.playing⟩ ⟨0, 0⟩ ⟨2, 0⟩ none =
      Actor.lava (Vec.plus ⟨0, 0⟩ (Vec.times ⟨2, 0⟩ 0)) ⟨2, 0⟩ none
    ∧ Lava.update 1 ⟨lvl1, [], Status.playing⟩ ⟨0, 0⟩ ⟨2, 0⟩ none =
      Actor.lava ⟨0, 0⟩ (Vec.times ⟨2, 0⟩ (-1)) none :=
  ⟨(C6_lava_update 0 ⟨lvl1, [], Status.playing⟩ ⟨0, 0⟩ ⟨2, 0⟩ none).1
      (by with_unfolding_all decide),
   (C6_lava_update 1 ⟨lvl1, [], Status.playing⟩ ⟨0, 0⟩ ⟨2, 0⟩ none).2.2
      (by with_unfolding_all decide) rfl⟩

/-- Claim C7: `Monster.collide` removes the monster (by identity, i.e. by its
tag) and leaves the status unchanged when the player's bottom edge
`player.pos.y + player.size.y` is below the code threshold
`monster.pos.y + 1/2` (the monster's height is 2, so the threshold is the
vertical midpoint minus a margin of one half); otherwise the actor list is
unchanged and the status becomes `lost`. -/
theorem C7_monster_stomp (ts : TState) (i : Nat) (mpos : Vec) (pe : Nat × Actor)
    (hp : ts.player = some pe) :
    ((pe.2.pos.y + pe.2.size.y < mpos.y + 1/2 →
      Actor.collide i (Actor.monster mpos) ts =
        some ⟨ts.level, ts.actors.filter fun e => e.1 ≠ i, ts.status⟩)
    ∧ (¬ pe.2.pos.y + pe.2.size.y < mpos.y + 1/2 →
      Actor.collide i (Actor.monster mpos) ts = some ⟨ts.level, ts.actors, Status.lost⟩))
    ∧ (Actor.monster mpos).size.y = 2 := by
  have hcol : Actor.collide i (Actor.monster mpos) ts =
      if pe.2.pos.y + pe.2.size.y < mpos.y + 1/2
      then some ⟨ts.level, ts.actors.filter fun e => e.1 ≠ i, ts.status⟩
      else some ⟨ts.level, ts.actors, Status.lost⟩ := by
    unfold Actor.collide
    rw [hp]
  refine ⟨⟨?_, ?_⟩, rfl⟩
  · intro h
    rw [hcol, if_pos h]
  · intro h
    rw [hcol, if_neg h]

/-- Witness for C7: in `tsStomp` the player's feet (`y = 1.5`) are above the
monster threshold (`1.2 + 0.5 = 1.7`), so the monster entry is removed and
the status is unchanged. -/
theorem C7_monster_stomp_witness :
    Actor.collide 1 (Actor.monster ⟨0, mkRat 6 5⟩) tsStomp =
      some ⟨tsStomp.level, [(0, Actor.player ⟨0, 0⟩ ⟨0, 0⟩)], tsStomp.status⟩ := by
  have h := (C7_monster_stomp tsStomp 1 ⟨0, mkRat 6 5⟩ (0, Actor.player ⟨0, 0⟩ ⟨0, 0⟩)
    (by with_unfolding_all decide)).1.1 (by with_unfolding_all decide)
  exact h.trans (by with_unfolding_all decide)

theorem createActor_isSome (rnd : Nat → ℚ) (k : ActorClass) (pos : Vec) (c : Char) (n : Nat)
    (h : levelChars c = some (LevelChar.actorClass k)) :
    (createActor rnd k pos c n).isSome = true := by
  unfold levelChars at h
  split_ifs at h <;> simp_all [createActor, Lava.create] <;>
    (cases h; simp_all [createActor, Lava.create])

theorem parseRow_eq_none_iff (rnd : Nat → ℚ) (y : Nat) :
    ∀ (cs : List Char) (x n : Nat),
      parseRow rnd y x n cs = none ↔ ∃ c ∈ cs, levelChars c = none := by
  intro cs
  induction cs with
  | nil =>
    intro x n
    simp [parseRow]
  | cons c cs ih =>
    intro x n
    cases hc : levelChars c with
    | none =>
      simp only [parseRow, hc]
      exact iff_of_true trivial ⟨c, List.mem_cons_self c cs, hc⟩
    | some lc =>
      have hnotc : ¬ levelChars c = none := by simp [hc]
      have hcons : (∃ d ∈ cs, levelChars d = none) ↔ (∃ d ∈ c :: cs, levelChars d = none) := by
        constructor
        · rintro ⟨d, hd, hdn⟩
          exact ⟨d, List.mem_cons_of_mem c hd, hdn⟩
        · rintro ⟨d, hd, hdn⟩
          rcases List.mem_cons.mp hd with rfl | hd
          · exact absurd hdn hnotc
          · exact ⟨d, hd, hdn⟩
      cases lc with
      | tile t =>
        simp only [parseRow, hc]
        rw [Option.map_eq_none', ih (x + 1) n]
        exact hcons
      | actorClass k =>
        have hsome := createActor_isSome rnd k ⟨(x : ℚ), (y : ℚ)⟩ c n hc
        obtain ⟨p, hp⟩ := Option.isSome_iff_exists.mp hsome
        obtain ⟨a, n'⟩ := p
        simp only [parseRow, hc, hp]
        rw [Option.map_eq_none', ih (x + 1) n']
        exact hcons

theorem parseRows_eq_none_iff (rnd : Nat → ℚ) :
    ∀ (rows : List (List Char)) (y n : Nat),
      parseRows rnd y n rows = none ↔ ∃ row ∈ rows, ∃ c ∈ row, levelChars c = none := by
  intro rows
  induction rows with
  | nil =>
    intro y n
    simp [parseRows]
  | cons r rs ih =>
    intro y n
    cases hr : parseRow rnd y 0 n r with
    | none =>
      have hbad := (parseRow_eq_none_iff rnd y r 0 n).mp hr
      simp only [parseRows, hr]
      exact iff_of_true trivial ⟨r, List.mem_cons_self r rs, hbad⟩
    | some res =>
      have hgood : ¬ ∃ c ∈ r, levelChars c = none := by
        intro hex
        rw [← parseRow_eq_none_iff rnd y r 0 n] at hex
        rw [hr] at hex
        cases hex
      obtain ⟨ts, acts, n'⟩ := res
      simp only [parseRows, hr]
      rw [Option.map_eq_none', ih (y + 1) n']
      constructor
      · rintro ⟨row, hrow, hex⟩
        exact ⟨row, List.mem_cons_of_mem r hrow, hex⟩
      · rintro ⟨row, hrow, hex⟩
        rcases List.mem_cons.mp hrow with rfl | hrow
        · exact absurd hex hgood
        · exact ⟨row, hrow, hex⟩

/-- Counterexample to claim C3 as stated: the plan `"..\n."` has rows of
unequal lengths (2 and 1) and contains no player-spawn character `'@'`, yet
the `Level` constructor does not fail — it returns a normally constructed
`Level`.  Row-length consistency and player presence are never checked. -/
theorem C3_counterexample :
    (parseLevel rnd0 "..\n.").isSome = true
    ∧ (rowsOfPlan "..\n.").map List.length = [2, 1]
    ∧ (rowsOfPlan "..\n.").flatten.contains '@' = false := by
  with_unfolding_all decide

/-- Claim C3 (amended): level parsing fails — an error is signalled to the
caller (in the source a `TypeError` from invoking `.create` on `undefined`)
instead of a `Level` being constructed — if and only if the trimmed and
split plan contains a character outside the mapping
`{'.', '#', '+', '@', 'o', '=', '|', 'v', 'M'}`.  Inconsistent row lengths
and the absence of a player-spawn character are not detected at parse time
and do not cause a failure. -/
theorem C3_parse_fails_iff_bad_char (rnd : Nat → ℚ) (plan : String) :
    parseLevel rnd plan = none ↔
      ∃ row ∈ rowsOfPlan plan, ∃ c ∈ row, levelChars c = none := by
  unfold parseLevel
  cases h : parseRows rnd 0 0 (rowsOfPlan plan) with
  | none =>
    simp only [h]
    exact iff_of_true trivial ((parseRows_eq_none_iff rnd (rowsOfPlan plan) 0 0).mp h)
  | some res =>
    obtain ⟨ts, acts, n'⟩ := res
    simp only [h]
    refine iff_of_false (by simp) ?_
    intro hex
    rw [← parseRows_eq_none_iff rnd (rowsOfPlan plan) 0 0] at hex
    rw [h] at hex
    cases hex

/-- Witness for the amended C3: the plan `".?"` fails to parse, and the
theorem recovers the unrecognized character from that failure. -/
theorem C3_parse_fails_iff_bad_char_witness :
    ∃ row ∈ rowsOfPlan ".?", ∃ c ∈ row, levelChars c = none :=
  (C3_parse_fails_iff_bad_char rnd0 ".?").mp (by with_unfolding_all decide)
